import Mathlib

set_option maxRecDepth 100000

/-!
Verification development for the report-generation pipeline of
`AI_in_medical_imaging.py`: a shallow embedding of the retry loop, the prompt
builder, the markdown cleanup, the PDF layout, the image-resize arithmetic and
the generation handler, together with theorems settling the specification
claims about them.
-/

/-- Branding constant `APP_TITLE` (source line 24). -/
def APP_TITLE : String := "Arfin Parween • AI in Medical Imaging"

/-- Branding constant `BRAND_TAGLINE` (source line 26). -/
def BRAND_TAGLINE : String := "Structured radiology-style notes • explainable • demo-friendly"

/-- Character-list test: the first argument is an initial segment of the
second. -/
def leadsWith : List Char → List Char → Bool
  | [], _ => true
  | _ :: _, [] => false
  | a :: p, b :: s => a == b && leadsWith p s

/-- Character-list test: the pattern occurs contiguously somewhere in the
text. -/
def occursIn (pat : List Char) : List Char → Bool
  | [] => leadsWith pat []
  | c :: rest => leadsWith pat (c :: rest) || occursIn pat rest

/-- Substring membership, Python `pat in s`. -/
def containsSub (s pat : String) : Bool := occursIn pat.data s.data

/-- Rate-limit test of the except-branch (source line 264): the message of the
raised error is inspected for the three fixed indicator substrings. -/
def rl_flagged (msg : String) : Bool :=
  containsSub msg "429" || containsSub msg "RESOURCE_EXHAUSTED" || containsSub msg "RATE_LIMIT"

/-- Observable outcome of `run_analysis_with_retry`: the returned string, the
number of model invocations performed, and the total seconds slept. -/
structure RunOutcome where
  result : String
  calls : Nat
  slept : Nat
deriving DecidableEq, Repr

/-- Python `f"⚠️ Analysis error: ..."` (source line 268); `str` of the stored
exception is its message, and the literal `None` when no error was stored. -/
def analysisErrorString : Option String → String
  | some e => "⚠️ Analysis error: " ++ e
  | none => "⚠️ Analysis error: None"

/-- The loop body of `run_analysis_with_retry` (source lines 256-268). `i` is
the attempt index of `for i in range(retries + 1)`, `fuel` the number of
remaining iterations, `lastErr` the message of the last stored exception, and
`calls`/`slept` the accumulated invocation count and sleep seconds. The model
invocation at attempt `i` is `agent i`; on a rate-limit-flagged error the code
sleeps `2 ^ i` seconds before re-entering the loop header, also when this was
the final iteration. -/
def runLoop (agent : Nat → Except String String) :
    Nat → Nat → Option String → Nat → Nat → RunOutcome
  | _, 0, lastErr, calls, slept => ⟨analysisErrorString lastErr, calls, slept⟩
  | i, fuel + 1, _, calls, slept =>
    match agent i with
    | .ok content => ⟨content, calls + 1, slept⟩
    | .error e =>
      if rl_flagged e then runLoop agent (i + 1) fuel (some e) (calls + 1) (slept + 2 ^ i)
      else ⟨analysisErrorString (some e), calls + 1, slept⟩

/-- Embedding of `run_analysis_with_retry` (source lines 255-268). -/
def run_analysis_with_retry (agent : Nat → Except String String) (retries : Nat) : RunOutcome :=
  runLoop agent 0 (retries + 1) none 0 0

/-- A model stub that raises on every invocation, with message `msgs i` on the
invocation of attempt `i`. -/
def errAgent (msgs : Nat → String) : Nat → Except String String :=
  fun i => .error (msgs i)

/-- Embedding of the dimension computation of `resize_and_save` (source lines
243-252): `aspect = (w / h) if h else 1.0` and `new_h = int(new_w / aspect)`
with `new_w = target_width`. Python float division is modelled as exact
rational division; `int(...)` truncates toward zero, which on the nonnegative
values arising here is the floor. For `w = 0` and `h > 0` the Python code
raises `ZeroDivisionError`, so the model is only meaningful for `0 < w`. -/
def resize_and_save_dims (w h target_width : Nat) : Nat × Nat :=
  let aspect : ℚ := if h = 0 then 1 else (w : ℚ) / (h : ℚ)
  (target_width, (Int.floor ((target_width : ℚ) / aspect)).toNat)

/-- Splitting a character list at every newline, keeping empty pieces (the
behaviour of `str.split("\n")`). -/
def splitLinesCh : List Char → List (List Char)
  | [] => [[]]
  | c :: rest =>
    if c = '\n' then [] :: splitLinesCh rest
    else
      match splitLinesCh rest with
      | [] => [[c]]
      | l :: ls => (c :: l) :: ls

/-- Python `str.splitlines()` for texts whose only line terminator is `"\n"`
(the only terminator occurring in the strings of this program): the empty string
yields no lines, and a trailing newline does not produce a trailing empty
line. -/
def pySplitlinesCh (l : List Char) : List (List Char) :=
  if l = [] then []
  else if l.getLast? = some '\n' then (splitLinesCh l).dropLast
  else splitLinesCh l

/-- String-level wrapper of `pySplitlinesCh`. -/
def pySplitlines (s : String) : List String :=
  (pySplitlinesCh s.data).map (fun l => String.mk l)

/-- Embedding of `build_prompt` (source lines 149-178): the f-string template
with the optional References block inserted exactly when `web_enabled`. -/
def build_prompt (web_enabled : Bool) : String :=
  "\nYou are an AI assistant for an **educational demo** on **AI in Medical Imaging**.\nBe cautious, avoid definitive diagnosis, and use safe language like \"may suggest\" or \"could be consistent with\".\n\nReturn Markdown with:\n\n## 1) Modality & Anatomy\n- Likely modality and view/region\n- Image quality/limitations\n\n## 2) Key Visual Observations\n- Bullet observations (describe what you see)\n\n## 3) Differential & Next Steps (Educational)\n- 2–4 differentials with low/medium/high confidence\n- What additional info/imaging helps\n- Mention urgent red flags if relevant (without alarmist tone)\n\n## 4) Patient-friendly summary\nExplain simply.\n\n## 5) Safety Note\nShort disclaimer: not medical advice.\n\n"
    ++ (if web_enabled then
          "## 6) References (web)\nIf web is enabled, include 2–3 brief references/titles.\n"
        else "")
    ++ "\n\n---\n**Demo Branding:** " ++ APP_TITLE ++ " • " ++ BRAND_TAGLINE ++ "\n"

/-- A section marker is a line of the template starting with the markdown
heading prefix used by the six numbered sections. -/
def sectionMarkerCount (s : String) : Nat :=
  ((pySplitlinesCh s.data).filter (fun l => leadsWith "## ".data l)).length

/-- Python `str.replace(p, "")` for a two-character pattern `[a, b]`: scan left
to right, dropping every leftmost non-overlapping occurrence. -/
def strip2 (a b : Char) : List Char → List Char
  | [] => []
  | [c] => [c]
  | c1 :: c2 :: rest =>
    if c1 = a ∧ c2 = b then strip2 a b rest
    else c1 :: strip2 a b (c2 :: rest)

/-- Python `str.replace(p, "")` for a three-character pattern `[a, b, c]`. -/
def strip3 (a b c : Char) : List Char → List Char
  | [] => []
  | [c1] => [c1]
  | [c1, c2] => [c1, c2]
  | c1 :: c2 :: c3 :: rest =>
    if c1 = a ∧ c2 = b ∧ c3 = c then strip3 a b c rest
    else c1 :: strip3 a b c (c2 :: c3 :: rest)

/-- Python `str.replace(p, "")` for a four-character pattern `[a, b, c, d]`. -/
def strip4 (a b c d : Char) : List Char → List Char
  | [] => []
  | [c1] => [c1]
  | [c1, c2] => [c1, c2]
  | [c1, c2, c3] => [c1, c2, c3]
  | c1 :: c2 :: c3 :: c4 :: rest =>
    if c1 = a ∧ c2 = b ∧ c3 = c ∧ c4 = d then strip4 a b c d rest
    else c1 :: strip4 a b c d (c2 :: c3 :: c4 :: rest)

/-- The per-line cleanup of `markdown_to_text` (source lines 188-189): remove
all occurrences of `**`, then `__`, then `"### "`, then `"## "`, then `"# "`,
each replacement scanning the whole line, in the order of the source. -/
def cleanupLine (l : List Char) : List Char :=
  strip2 '#' ' ' (strip3 '#' '#' ' '
    (strip4 '#' '#' '#' ' ' (strip2 '_' '_' (strip2 '*' '*' l))))

/-- Drop leading whitespace characters. -/
def dropLeadingWs : List Char → List Char
  | [] => []
  | c :: rest => if c.isWhitespace then dropLeadingWs rest else c :: rest

/-- Python `str.strip()` restricted to the ASCII whitespace occurring in the
strings of this program. -/
def pyStrip (l : List Char) : List Char :=
  (dropLeadingWs (dropLeadingWs l).reverse).reverse

/-- Python `"\n".join(...)` on character lists. -/
def joinNl : List (List Char) → List Char
  | [] => []
  | [l] => l
  | l :: ls => l ++ '\n' :: joinNl ls

/-- A line built from segments interleaved with copies of one separator
string: `joinWith sep [s0, s1, ..., sk]` is `s0 ++ sep ++ s1 ++ ... ++ sep ++
sk`. Used to state the removal of every marker occurrence in a line. -/
def joinWith (sep : List Char) : List (List Char) → List Char
  | [] => []
  | [s] => s
  | s :: s2 :: rest => s ++ sep ++ joinWith sep (s2 :: rest)

/-- Embedding of `markdown_to_text` (source lines 184-191): split into lines,
apply the replacement chain to each line, re-join with newlines and strip the
surrounding whitespace of the joined result. -/
def markdown_to_text (md : String) : String :=
  String.mk (pyStrip (joinNl ((pySplitlinesCh md.data).map cleanupLine)))

/-- A character list containing none of the marker characters of
`markdown_to_text`. -/
def markerFree (l : List Char) : Prop := '#' ∉ l ∧ '*' ∉ l ∧ '_' ∉ l

instance (l : List Char) : Decidable (markerFree l) := by
  unfold markerFree
  infer_instance

/-- Vertical coordinates of the PDF layout are measured in units of `1/127` of
a point, which makes every constant of the source integral and exact:
reportlab has `cm = 72 / 2.54 = 3600/127` points, so one centimeter is `3600`
units. The scaling is an exact order-preserving rescaling of the coordinate
arithmetic of the source; the float values of the source are IEEE approximations of
these rationals and stay bounded away from every branch point reached, so all
comparisons agree. `ptUnits p` is `p` points. -/
def ptUnits (p : Int) : Int := 127 * p

/-- One centimeter in layout units, reportlab `cm = 3600/127` points. -/
def cmUnits : Int := 3600

/-- One millimeter in layout units. -/
def mmUnits : Int := 360

/-- A4 page height, `297 mm`, in layout units. -/
def a4Height : Int := 297 * mmUnits

/-- One recorded `drawString` command: position, text and the font active when
it was issued (vertical position in layout units). -/
structure DrawCmd where
  x : Int
  y : Int
  text : String
  font : Option (String × Nat)
deriving DecidableEq, Repr

/-- The canvas state of `make_pdf_bytes`: closed pages, the commands of the
open page, the active font, and the vertical cursor `y` in layout units. -/
structure PdfLayout where
  pages : List (List DrawCmd)
  current : List DrawCmd
  font : Option (String × Nat)
  y : Int
deriving DecidableEq, Repr

/-- Model of `canvas.drawString`. -/
def drawString (st : PdfLayout) (x y : Int) (text : String) : PdfLayout :=
  { st with current := st.current ++ [⟨x, y, text, st.font⟩] }

/-- Model of `canvas.showPage`: close the open page; reportlab also resets the
font state. -/
def showPage (st : PdfLayout) : PdfLayout :=
  { st with pages := st.pages ++ [st.current], current := [], font := none }

/-- Model of `canvas.setFont`. -/
def setFont (st : PdfLayout) (name : String) (size : Nat) : PdfLayout :=
  { st with font := some (name, size) }

/-- The page-break check of the body loop (source lines 221-224 and 229-232):
after a draw and cursor decrement, a cursor below the 2 cm bottom margin
closes the page, resets the body font and moves the cursor back to
`height - 2 cm`. -/
def pageBreakCheck (st : PdfLayout) : PdfLayout :=
  if st.y < 2 * cmUnits then
    { setFont (showPage st) "Helvetica" 10 with y := a4Height - 2 * cmUnits }
  else st

/-- Chunking of one line at `max_chars = 110` characters, the slicing done by
the while-loop of `make_pdf_bytes` (source lines 215-219) followed by the
final remainder (line 226); the fuel argument is bounded by the line length. -/
def chunksAux : Nat → List Char → List (List Char)
  | 0, l => [l]
  | f + 1, l => if l.length > 110 then l.take 110 :: chunksAux f (l.drop 110) else [l]

/-- All chunks of a line, each drawn by one `drawString` of the body loop. -/
def chunks110 (l : List Char) : List (List Char) := chunksAux l.length l

/-- Drawing one chunk: draw at the cursor, move down 12 points, then run the
page-break check. -/
def emitPiece (st : PdfLayout) (piece : List Char) : PdfLayout :=
  pageBreakCheck
    { drawString st (2 * cmUnits) st.y (String.mk piece) with y := st.y - ptUnits 12 }

/-- Processing one line of the cleaned text (source lines 209-232): a
whitespace-only line only moves the cursor down by 10 points, with no
page-break check; any other line is drawn in chunks of at most 110
characters. -/
def emitLine (st : PdfLayout) (line : List Char) : PdfLayout :=
  if (pyStrip line).isEmpty then { st with y := st.y - ptUnits 10 }
  else (chunks110 line).foldl emitPiece st

/-- Embedding of `make_pdf_bytes` (source lines 194-237), modelling the canvas
as the stream of draw commands grouped into pages rather than the serialized
PDF bytes: bold 14-point header at the top margin, body font Helvetica 10,
body cursor starting at `height - 3 cm`, then one `emitLine` per line of the
cleaned report, and a final `showPage` closing the last page. -/
def make_pdf_bytes (title md_report : String) : PdfLayout :=
  let text := markdown_to_text md_report
  let st0 : PdfLayout := { pages := [], current := [], font := none, y := 0 }
  let st1 := setFont st0 "Helvetica-Bold" 14
  let st2 := drawString st1 (2 * cmUnits) (a4Height - 2 * cmUnits) title
  let st3 := setFont st2 "Helvetica" 10
  let st4 := { st3 with y := a4Height - 3 * cmUnits }
  let st5 := (pySplitlinesCh text.data).foldl emitLine st4
  showPage st5

/-- All draw commands issued so far, in order. -/
def draws (st : PdfLayout) : List DrawCmd := st.pages.flatten ++ st.current

/-- Number of closed pages. -/
def pageCount (st : PdfLayout) : Nat := st.pages.length

/-- Whether some draw command was issued strictly below the bottom margin. -/
def hasBelowMarginDraw (st : PdfLayout) : Bool :=
  (draws st).any (fun d => decide (d.y < 2 * cmUnits))

/-- A report consisting of a text line, 79 blank lines, and a final text
line. -/
def blankHeavyMd : String := "a" ++ String.mk (List.replicate 80 '\n') ++ "x"

/-- A report of sixty short lines, more than the one-page capacity of 59. -/
def longReportMd : String := String.mk (joinNl (List.replicate 60 ['x']))

/-- Invariant of the body loop: the cursor is at or above the bottom margin,
and so is every draw command issued so far. -/
def goodLayout (st : PdfLayout) : Prop :=
  2 * cmUnits ≤ st.y ∧ ∀ d ∈ draws st, 2 * cmUnits ≤ d.y

/-- Embedding of `demo_report_template` (source lines 271-296). -/
def demo_report_template : String :=
  "\n## 1) Modality & Anatomy\n- Likely modality: X-ray (educational guess)\n- Region: Chest (projection uncertain)\n- Quality: Mild rotation; exposure acceptable for a basic educational interpretation.\n\n## 2) Key Visual Observations\n- No obvious large focal consolidation on this preview.\n- Cardiomediastinal silhouette appears within expected range (projection-dependent).\n- No clear large pleural effusion; subtle findings may require additional views.\n\n## 3) Differential & Next Steps (Educational)\n- Low confidence: mild atelectasis vs under-inflation (shallow inspiration).\n- Consider additional view (lateral) or repeat if clinically indicated.\n- Correlate with symptoms, exam, oxygen saturation, and clinician assessment.\n\n## 4) Patient-friendly summary\nAt a quick glance, nothing big stands out, but subtle issues can be missed. A doctor uses symptoms + more views/tests to confirm.\n\n## 5) Safety Note\nEducational demo only. Not medical advice. Consult a clinician for diagnosis/treatment.\n\n---\n**Demo Branding:** "
    ++ APP_TITLE ++ " • " ++ BRAND_TAGLINE ++ "\n"

/-- A filesystem action on a temporary file of the request. -/
inductive FsEvent where
  | create (path : String)
  | remove (path : String)
deriving DecidableEq, Repr

/-- Replaying filesystem events: `create` writes the file, `remove` models
`if os.path.exists(p): os.remove(p)` — deleting the file when present and
doing nothing otherwise. The result is the list of files on disk at the
end. -/
def applyFs (evs : List FsEvent) : List String :=
  evs.foldl
    (fun fs e =>
      match e with
      | .create p => fs ++ [p]
      | .remove p => fs.filter (fun q => q != p))
    []

/-- The request-time settings read from the sidebar (source lines 99-112). -/
structure Config where
  demo_mode : Bool
  enable_web : Bool
  model_id : String
  max_retries : Nat
  resize_width : Nat
deriving DecidableEq, Repr

/-- The uploaded file of a generation request: its declared MIME type. -/
structure Upload where
  mime : String
deriving DecidableEq, Repr

/-- Environment of one generation request: the hex names drawn by
`uuid.uuid4().hex` for the two temporary files, the outcomes of the fallible
steps of the pipeline, and the model collaborator. `rawWriteOk` is the write
of the raw upload bytes (source lines 363-364: the `open(...)` creates the
file and the write happens before the try/finally guard is entered);
`decodeOk` is `PILImage.open` inside `resize_and_save` (a decode failure
raises before the resized file is created); `agnoOk` is the `AgnoImage`
construction (source line 374, inside the inner try); `postOk` covers the
steps after the report is computed (history insert, rendering, downloads,
source lines 380-411, inside the outer try). `agent i` is the outcome of the
model invocation of attempt `i`; agent construction and prompt construction
are modelled as non-failing. -/
structure Env where
  uploadHex : String
  resizedHex : String
  rawWriteOk : Bool
  decodeOk : Bool
  agnoOk : Bool
  postOk : Bool
  agent : Nat → Except String String

/-- Splitting a character list at every slash, Python `str.split("/")`. -/
def splitSlash : List Char → List (List Char)
  | [] => [[]]
  | c :: rest =>
    if c = '/' then [] :: splitSlash rest
    else
      match splitSlash rest with
      | [] => [[c]]
      | l :: ls => (c :: l) :: ls

/-- Python `uploaded.type.split("/")[-1]` (source line 361). -/
def upload_ext (mime : String) : String :=
  String.mk (((splitSlash mime.data).getLast?).getD [])

/-- The raw-upload temporary file name `f"upload_..."` (source line 362). -/
def raw_path_name (hex ext : String) : String := "upload_" ++ hex ++ "." ++ ext

/-- The resized temporary file name `f"temp_...png"` (source line 250). -/
def resized_path_name (hex : String) : String := "temp_" ++ hex ++ ".png"

/-- Observable outcome of one generation request: the value bound to the
`report` variable when reached, the normal or exceptional completion, the
filesystem events in program order, and the number of model invocations. -/
structure GenOutcome where
  reportVal : Option String
  result : Except String String
  events : List FsEvent
  modelCalls : Nat
deriving Repr

/-- The demo/real branch of the handler (source lines 367-378): the demo
branch returns the fixed template without touching the model or the resize
step; the real branch resizes (creating the resized temporary, whose removal
by the inner finally always follows), builds the Agno image and runs the
retried analysis, which never raises. Components: report value, branch
result, filesystem events, model invocations. -/
def run_branch (cfg : Config) (env : Env) (resizedPath : String) :
    Option String × Except String String × List FsEvent × Nat :=
  if cfg.demo_mode then (some demo_report_template, .ok demo_report_template, [], 0)
  else if env.decodeOk = false then (none, .error "image decode failure", [], 0)
  else if env.agnoOk = false then
    (none, .error "agno image failure", [.create resizedPath, .remove resizedPath], 0)
  else
    let r := run_analysis_with_retry env.agent cfg.max_retries
    (some r.result, .ok r.result, [.create resizedPath, .remove resizedPath], r.calls)

/-- Embedding of the generation handler (source lines 359-415): write the raw
upload to `upload_<hex>.<ext>` (a failing write propagates before the
try/finally is entered, leaking the raw file), then run the demo/real branch
inside the try; afterwards the history/render/download steps run (`postOk`),
and the outer finally removes the raw file if it exists. -/
def generate_report (cfg : Config) (upl : Upload) (env : Env) : GenOutcome :=
  let rawPath := raw_path_name env.uploadHex (upload_ext upl.mime)
  if env.rawWriteOk = false then
    { reportVal := none, result := .error "raw upload write failure",
      events := [.create rawPath], modelCalls := 0 }
  else
    let b := run_branch cfg env (resized_path_name env.resizedHex)
    { reportVal := b.1,
      result :=
        match b.2.1 with
        | .ok rep => if env.postOk then .ok rep else .error "post-processing failure"
        | .error e => .error e,
      events := .create rawPath :: b.2.2.1 ++ [.remove rawPath],
      modelCalls := b.2.2.2 }

/-- The files left on disk by a finished generation request. -/
def leakedFiles (o : GenOutcome) : List String := applyFs o.events

/-- The upload gate of the Analyze tab (source lines 356 and 416-417): without
an uploaded image no generation runs, only a warning is shown. -/
def analyze_tab (cfg : Config) (upl : Option Upload) (env : Env) : Option GenOutcome :=
  match upl with
  | none => none
  | some u => some (generate_report cfg u env)

/-- A demo-mode configuration used by witnesses. -/
def cfgDemo : Config := ⟨true, false, "gemini-flash-latest", 3, 640⟩

/-- A real-mode configuration used by witnesses. -/
def cfgReal : Config := ⟨false, false, "gemini-flash-latest", 3, 640⟩

/-- A PNG upload used by witnesses. -/
def uplPng : Upload := ⟨"image/png"⟩

/-- A fully successful environment used by witnesses. -/
def envOk : Env := ⟨"aaaa", "bbbb", true, true, true, true, errAgent (fun _ => "429")⟩

/-- An environment whose raw-upload write raises. -/
def envRawFail : Env := ⟨"aaaa", "bbbb", false, true, true, true, errAgent (fun _ => "429")⟩

/-- Closed form of the retry loop against a stub whose every invocation raises
a rate-limit-flagged error: all `fuel + 1` iterations run, each invokes the
model once and sleeps `2 ^ attempt` seconds, and the loop falls through to the
error string built from the last message. -/
theorem runLoop_errAgent_rl (msgs : Nat → String) (h : ∀ j, rl_flagged (msgs j) = true) :
    ∀ fuel i lastErr calls slept,
      runLoop (errAgent msgs) i (fuel + 1) lastErr calls slept =
        ⟨analysisErrorString (some (msgs (i + fuel))), calls + (fuel + 1),
          slept + 2 ^ i * (2 ^ (fuel + 1) - 1)⟩ := by
  intro fuel
  induction fuel with
  | zero =>
    intro i lastErr calls slept
    simp [runLoop, errAgent, h i]
  | succ f ih =>
    intro i lastErr calls slept
    have hstep :
        runLoop (errAgent msgs) i (f + 1 + 1) lastErr calls slept =
          runLoop (errAgent msgs) (i + 1) (f + 1) (some (msgs i)) (calls + 1)
            (slept + 2 ^ i) := by
      simp [runLoop, errAgent, h i]
    rw [hstep, ih (i + 1) (some (msgs i)) (calls + 1) (slept + 2 ^ i)]
    have hidx : i + 1 + f = i + (f + 1) := by omega
    have h1 : 1 ≤ 2 ^ (f + 1) := Nat.one_le_two_pow
    obtain ⟨b, hb⟩ : ∃ b, 2 ^ (f + 1) = b + 1 := ⟨2 ^ (f + 1) - 1, by omega⟩
    have hslept :
        slept + 2 ^ i + 2 ^ (i + 1) * (2 ^ (f + 1) - 1) =
          slept + 2 ^ i * (2 ^ (f + 1 + 1) - 1) := by
      rw [pow_succ 2 (f + 1), pow_succ 2 i, hb]
      have hx : (b + 1) * 2 - 1 = 2 * b + 1 := by omega
      have hy : b + 1 - 1 = b := by omega
      rw [hx, hy]
      ring
    rw [hidx, hslept]
    have hcalls : calls + 1 + (f + 1) = calls + (f + 1 + 1) := by omega
    rw [hcalls]

/-- C1: for every retry budget `R ≥ 0`, against a model stub that raises a
rate-limit-flagged error on every invocation, `run_analysis_with_retry` invokes
the model exactly `R + 1` times and returns the analysis-error string embedding
the last underlying message, not model content. -/
theorem retry_exhaustion_invocation_count (R : Nat) (msgs : Nat → String)
    (h : ∀ j, rl_flagged (msgs j) = true) :
    (run_analysis_with_retry (errAgent msgs) R).calls = R + 1 ∧
      (run_analysis_with_retry (errAgent msgs) R).result =
        "⚠️ Analysis error: " ++ msgs R := by
  unfold run_analysis_with_retry
  rw [runLoop_errAgent_rl msgs h R 0]
  simp [analysisErrorString]

/-- Witness for C1 at `R = 2` and the constant message `"429 quota exceeded"`. -/
theorem retry_exhaustion_invocation_count_witness :
    rl_flagged "429 quota exceeded" = true ∧
      (run_analysis_with_retry (errAgent fun _ => "429 quota exceeded") 2).calls = 2 + 1 ∧
      (run_analysis_with_retry (errAgent fun _ => "429 quota exceeded") 2).result =
        "⚠️ Analysis error: " ++ "429 quota exceeded" :=
  ⟨by decide, retry_exhaustion_invocation_count 2 (fun _ => "429 quota exceeded")
    (fun _ => rfl)⟩

/-- Counterexample for C2 as stated: with retry budget `R = 0` and a stub that
always raises a rate-limit-flagged error, the claim predicts zero cumulative
sleep, but the code sleeps `2 ^ 0 = 1` second before discovering that the loop
is exhausted. -/
theorem retry_sleep_zero_budget_cex :
    (run_analysis_with_retry (errAgent fun _ => "HTTP 429") 0).slept = 1 ∧
      (run_analysis_with_retry (errAgent fun _ => "HTTP 429") 0).slept ≠ 0 := by
  decide

/-- C2 (amended): when every invocation raises a rate-limit-flagged error, the
cumulative sleep over a budget of `R` retries is `2 ^ 0 + ⋯ + 2 ^ R`, that is
`2 ^ (R + 1) - 1` seconds: the backoff sleep happens after every flagged
failure, including the one on the final attempt. -/
theorem retry_cumulative_sleep (R : Nat) (msgs : Nat → String)
    (h : ∀ j, rl_flagged (msgs j) = true) :
    (run_analysis_with_retry (errAgent msgs) R).slept = 2 ^ (R + 1) - 1 := by
  unfold run_analysis_with_retry
  rw [runLoop_errAgent_rl msgs h R 0]
  simp

/-- Witness for the amended C2 at `R = 1`: total sleep is `2 ^ 2 - 1 = 3`. -/
theorem retry_cumulative_sleep_witness :
    rl_flagged "RESOURCE_EXHAUSTED: quota" = true ∧
      (run_analysis_with_retry (errAgent fun _ => "RESOURCE_EXHAUSTED: quota") 1).slept =
        2 ^ (1 + 1) - 1 :=
  ⟨by decide, retry_cumulative_sleep 1 (fun _ => "RESOURCE_EXHAUSTED: quota")
    (fun _ => rfl)⟩

/-- C3: with any positive retry budget, a first invocation that raises an error
carrying none of the rate-limit indicators is not retried: the model is invoked
exactly once, no sleep happens, and the analysis-error string embedding that
error is returned immediately. -/
theorem nonretryable_single_invocation (R : Nat) (hR : 0 < R)
    (agent : Nat → Except String String) (msg : String)
    (h0 : agent 0 = .error msg) (hmsg : rl_flagged msg = false) :
    run_analysis_with_retry agent R = ⟨"⚠️ Analysis error: " ++ msg, 1, 0⟩ := by
  unfold run_analysis_with_retry
  simp [runLoop, h0, hmsg, analysisErrorString]

/-- Witness for C3 at `R = 1` and the non-retryable message `"boom"`. -/
theorem nonretryable_single_invocation_witness :
    (0 : Nat) < 1 ∧ rl_flagged "boom" = false ∧
      run_analysis_with_retry (fun _ => .error "boom") 1 =
        ⟨"⚠️ Analysis error: " ++ "boom", 1, 0⟩ :=
  ⟨by decide, by decide,
    nonretryable_single_invocation 1 (by decide) (fun _ => .error "boom") "boom" rfl (by decide)⟩

/-- Counterexample for C6 as stated: at original size `3 × 1` and target width
`5`, the claim predicts height `round(5 * 1 / 3) = 2`, but the code computes
`int(5 / 3.0) = 1`: the height is truncated, not rounded. -/
theorem resize_height_round_cex :
    (resize_and_save_dims 3 1 5).2 = 1 ∧
      (round ((5 : ℚ) * 1 / 3)).toNat = 2 ∧
      (resize_and_save_dims 3 1 5).2 ≠ (round ((5 : ℚ) * 1 / 3)).toNat := by
  have h1 : (resize_and_save_dims 3 1 5).2 = 1 := by
    simp only [resize_and_save_dims]
    norm_num
  have h2 : (round ((5 : ℚ) * 1 / 3)).toNat = 2 := by
    rw [round_eq]
    norm_num
    decide
  exact ⟨h1, h2, by rw [h1, h2]; decide⟩

/-- C6 (amended): the resized width always equals the target width; for
`original_height = 0` the aspect ratio defaults to `1.0` and the height equals
the target width; for `original_height > 0` the height is the floor
(truncation) of `target_width * original_height / original_width`, not its
rounding. -/
theorem resize_height_floor (w h W : Nat) (hw : 0 < w) :
    (resize_and_save_dims w h W).1 = W ∧
      (h = 0 → (resize_and_save_dims w h W).2 = W) ∧
      (0 < h → (resize_and_save_dims w h W).2 = (⌊((W : ℚ) * (h : ℚ)) / (w : ℚ)⌋).toNat) := by
  refine ⟨rfl, ?_, ?_⟩
  · intro h0
    subst h0
    simp [resize_and_save_dims]
  · intro hh
    have hne : ¬h = 0 := Nat.pos_iff_ne_zero.mp hh
    have hwq : (w : ℚ) ≠ 0 := Nat.cast_ne_zero.mpr (Nat.pos_iff_ne_zero.mp hw)
    have hhq : (h : ℚ) ≠ 0 := Nat.cast_ne_zero.mpr hne
    have harg : (W : ℚ) / ((w : ℚ) / (h : ℚ)) = ((W : ℚ) * (h : ℚ)) / (w : ℚ) := by
      field_simp
    simp only [resize_and_save_dims, hne, if_false]
    rw [harg]

/-- Witness for the amended C6 at original size `3 × 2` and target width `5`:
the resized height is `⌊10 / 3⌋ = 3`. -/
theorem resize_height_floor_witness :
    (0 : Nat) < 3 ∧ (0 : Nat) < 2 ∧ (resize_and_save_dims 3 2 5).2 = 3 := by
  refine ⟨by decide, by decide, ?_⟩
  have h := (resize_height_floor 3 2 5 (by decide)).2.2 (by decide)
  rw [h]
  norm_num
  decide

/-- C7: `build_prompt` is a pure function of the web flag (it is a Lean
function, hence deterministic and effect-free); its output has exactly six
section markers when the web flag is set and exactly five otherwise, and the
References section text occurs in the output if and only if the flag is set. -/
theorem prompt_section_markers :
    sectionMarkerCount (build_prompt true) = 6 ∧
      sectionMarkerCount (build_prompt false) = 5 ∧
      ∀ b, containsSub (build_prompt b) "References" = b := by
  refine ⟨by decide, by decide, ?_⟩
  intro b
  cases b
  · decide
  · decide

/-- Counterexample for C8 as stated: the heading replacement is not restricted
to leading markers. On the line `"a # b"` the claim predicts the text is left
unchanged (no emphasis marker, no leading heading marker), but the code removes
the inner `"# "` occurrence and yields `"a b"`. -/
theorem markdown_inner_marker_cex :
    markdown_to_text "a # b" = "a b" ∧ markdown_to_text "a # b" ≠ "a # b" := by
  decide

/-- A two-character replacement leaves any list not containing the first
pattern character unchanged. -/
theorem strip2_of_no_first (a b : Char) :
    ∀ l, a ∉ l → strip2 a b l = l := by
  intro l
  induction l with
  | nil => intro _; rfl
  | cons c tl ih =>
    intro h
    cases tl with
    | nil => rfl
    | cons c2 rest =>
      have hc : ¬(c = a ∧ c2 = b) := by
        rintro ⟨rfl, -⟩
        exact h (List.mem_cons_self _ _)
      simp only [strip2]
      rw [if_neg hc, ih (fun hm => h (List.mem_cons_of_mem _ hm))]

/-- A two-character replacement passes over a character distinct from its
first pattern character. -/
theorem strip2_cons_ne (a b x : Char) (hx : x ≠ a) (l : List Char) :
    strip2 a b (x :: l) = x :: strip2 a b l := by
  cases l with
  | nil => rfl
  | cons t ts =>
    simp only [strip2]
    rw [if_neg (by rintro ⟨rfl, -⟩; exact hx rfl)]

/-- A two-character replacement removes its pattern at the scan position and
continues behind it. -/
theorem strip2_chomp (a b : Char) (l : List Char) :
    strip2 a b (a :: b :: l) = strip2 a b l := by
  simp [strip2]

/-- A two-character replacement passes over any prefix not containing its
first pattern character. -/
theorem strip2_skip (a b : Char) :
    ∀ pre l, a ∉ pre → strip2 a b (pre ++ l) = pre ++ strip2 a b l := by
  intro pre
  induction pre with
  | nil => intro l _; rfl
  | cons c pre' ih =>
    intro l h
    have hc : c ≠ a := fun hca => h (hca ▸ List.mem_cons_self _ _)
    rw [List.cons_append, strip2_cons_ne a b c hc,
      ih l (fun hm => h (List.mem_cons_of_mem _ hm)), List.cons_append]

/-- A three-character replacement passes over a character distinct from its
first pattern character. -/
theorem strip3_cons_ne (a b c x : Char) (hx : x ≠ a) (l : List Char) :
    strip3 a b c (x :: l) = x :: strip3 a b c l := by
  cases l with
  | nil => rfl
  | cons t1 ts =>
    cases ts with
    | nil => rfl
    | cons t2 ts' =>
      simp only [strip3]
      rw [if_neg (by rintro ⟨rfl, -, -⟩; exact hx rfl)]

/-- A three-character replacement passes over a position where its first two
pattern characters do not match. -/
theorem strip3_cons2_ne (a b c c1 c2 : Char) (h : ¬(c1 = a ∧ c2 = b)) (l : List Char) :
    strip3 a b c (c1 :: c2 :: l) = c1 :: strip3 a b c (c2 :: l) := by
  cases l with
  | nil => rfl
  | cons t ts =>
    simp only [strip3]
    rw [if_neg (by rintro ⟨h1, h2, -⟩; exact h ⟨h1, h2⟩)]

/-- A three-character replacement removes its pattern at the scan position and
continues behind it. -/
theorem strip3_chomp (a b c : Char) (l : List Char) :
    strip3 a b c (a :: b :: c :: l) = strip3 a b c l := by
  simp [strip3]

/-- A three-character replacement passes over any prefix not containing its
first pattern character. -/
theorem strip3_skip (a b c : Char) :
    ∀ pre l, a ∉ pre → strip3 a b c (pre ++ l) = pre ++ strip3 a b c l := by
  intro pre
  induction pre with
  | nil => intro l _; rfl
  | cons x pre' ih =>
    intro l h
    have hx : x ≠ a := fun hxa => h (hxa ▸ List.mem_cons_self _ _)
    rw [List.cons_append, strip3_cons_ne a b c x hx,
      ih l (fun hm => h (List.mem_cons_of_mem _ hm)), List.cons_append]

/-- A three-character replacement leaves any list not containing the first
pattern character unchanged. -/
theorem strip3_of_no_first (a b c : Char) :
    ∀ l, a ∉ l → strip3 a b c l = l := by
  intro l
  induction l with
  | nil => intro _; rfl
  | cons x xs ih =>
    intro h
    have hx : x ≠ a := fun hxa => h (hxa ▸ List.mem_cons_self _ _)
    rw [strip3_cons_ne a b c x hx, ih (fun hm => h (List.mem_cons_of_mem _ hm))]

/-- A four-character replacement passes over a character distinct from its
first pattern character. -/
theorem strip4_cons_ne (a b c d x : Char) (hx : x ≠ a) (l : List Char) :
    strip4 a b c d (x :: l) = x :: strip4 a b c d l := by
  cases l with
  | nil => rfl
  | cons t1 ts =>
    cases ts with
    | nil => rfl
    | cons t2 ts' =>
      cases ts' with
      | nil => rfl
      | cons t3 ts'' =>
        simp only [strip4]
        rw [if_neg (by rintro ⟨rfl, -, -, -⟩; exact hx rfl)]

/-- A four-character replacement passes over a position where its first two
pattern characters do not match. -/
theorem strip4_cons2_ne (a b c d c1 c2 : Char) (h : ¬(c1 = a ∧ c2 = b)) (l : List Char) :
    strip4 a b c d (c1 :: c2 :: l) = c1 :: strip4 a b c d (c2 :: l) := by
  cases l with
  | nil => rfl
  | cons t1 ts =>
    cases ts with
    | nil => rfl
    | cons t2 ts' =>
      simp only [strip4]
      rw [if_neg (by rintro ⟨h1, h2, -, -⟩; exact h ⟨h1, h2⟩)]

/-- A four-character replacement passes over a position where its first three
pattern characters do not match. -/
theorem strip4_cons3_ne (a b c d c1 c2 c3 : Char) (h : ¬(c1 = a ∧ c2 = b ∧ c3 = c))
    (l : List Char) :
    strip4 a b c d (c1 :: c2 :: c3 :: l) = c1 :: strip4 a b c d (c2 :: c3 :: l) := by
  cases l with
  | nil => rfl
  | cons t ts =>
    simp only [strip4]
    rw [if_neg (by rintro ⟨h1, h2, h3, -⟩; exact h ⟨h1, h2, h3⟩)]

/-- A four-character replacement removes its pattern at the scan position and
continues behind it. -/
theorem strip4_chomp (a b c d : Char) (l : List Char) :
    strip4 a b c d (a :: b :: c :: d :: l) = strip4 a b c d l := by
  simp [strip4]

/-- A four-character replacement passes over any prefix not containing its
first pattern character. -/
theorem strip4_skip (a b c d : Char) :
    ∀ pre l, a ∉ pre → strip4 a b c d (pre ++ l) = pre ++ strip4 a b c d l := by
  intro pre
  induction pre with
  | nil => intro l _; rfl
  | cons x pre' ih =>
    intro l h
    have hx : x ≠ a := fun hxa => h (hxa ▸ List.mem_cons_self _ _)
    rw [List.cons_append, strip4_cons_ne a b c d x hx,
      ih l (fun hm => h (List.mem_cons_of_mem _ hm)), List.cons_append]

/-- A four-character replacement leaves any list not containing the first
pattern character unchanged. -/
theorem strip4_of_no_first (a b c d : Char) :
    ∀ l, a ∉ l → strip4 a b c d l = l := by
  intro l
  induction l with
  | nil => intro _; rfl
  | cons x xs ih =>
    intro h
    have hx : x ≠ a := fun hxa => h (hxa ▸ List.mem_cons_self _ _)
    rw [strip4_cons_ne a b c d x hx, ih (fun hm => h (List.mem_cons_of_mem _ hm))]

/-- Unfolding equation of `joinWith` on a line with at least two segments. -/
theorem joinWith_cons2 (sep : List Char) (s s2 : List Char) (rest : List (List Char)) :
    joinWith sep (s :: s2 :: rest) = s ++ (sep ++ joinWith sep (s2 :: rest)) := by
  simp only [joinWith]
  simp [List.append_assoc]

/-- A two-character replacement removes every interleaved copy of its pattern:
on segments free of the first pattern character, joined by the pattern, it
returns exactly the concatenated segments. -/
theorem strip2_joinWith (a b : Char) :
    ∀ segs : List (List Char), (∀ s ∈ segs, a ∉ s) →
      strip2 a b (joinWith [a, b] segs) = segs.flatten := by
  intro segs
  induction segs with
  | nil => intro _; rfl
  | cons s tail ih =>
    intro h
    have hs : a ∉ s := h s (List.mem_cons_self _ _)
    cases tail with
    | nil =>
      simp only [joinWith, List.flatten_cons, List.flatten_nil, List.append_nil]
      exact strip2_of_no_first a b s hs
    | cons s2 rest =>
      rw [joinWith_cons2]
      simp only [List.cons_append, List.nil_append]
      rw [strip2_skip a b s _ hs, strip2_chomp,
        ih (fun x hx => h x (List.mem_cons_of_mem _ hx))]
      simp

/-- A three-character replacement removes every interleaved copy of its
pattern. -/
theorem strip3_joinWith (a b c : Char) :
    ∀ segs : List (List Char), (∀ s ∈ segs, a ∉ s) →
      strip3 a b c (joinWith [a, b, c] segs) = segs.flatten := by
  intro segs
  induction segs with
  | nil => intro _; rfl
  | cons s tail ih =>
    intro h
    have hs : a ∉ s := h s (List.mem_cons_self _ _)
    cases tail with
    | nil =>
      simp only [joinWith, List.flatten_cons, List.flatten_nil, List.append_nil]
      exact strip3_of_no_first a b c s hs
    | cons s2 rest =>
      rw [joinWith_cons2]
      simp only [List.cons_append, List.nil_append]
      rw [strip3_skip a b c s _ hs, strip3_chomp,
        ih (fun x hx => h x (List.mem_cons_of_mem _ hx))]
      simp

/-- A four-character replacement removes every interleaved copy of its
pattern. -/
theorem strip4_joinWith (a b c d : Char) :
    ∀ segs : List (List Char), (∀ s ∈ segs, a ∉ s) →
      strip4 a b c d (joinWith [a, b, c, d] segs) = segs.flatten := by
  intro segs
  induction segs with
  | nil => intro _; rfl
  | cons s tail ih =>
    intro h
    have hs : a ∉ s := h s (List.mem_cons_self _ _)
    cases tail with
    | nil =>
      simp only [joinWith, List.flatten_cons, List.flatten_nil, List.append_nil]
      exact strip4_of_no_first a b c d s hs
    | cons s2 rest =>
      rw [joinWith_cons2]
      simp only [List.cons_append, List.nil_append]
      rw [strip4_skip a b c d s _ hs, strip4_chomp,
        ih (fun x hx => h x (List.mem_cons_of_mem _ hx))]
      simp

/-- The three-character replacement `a a c` leaves a line of `a`-free segments
interleaved with the two-character marker `a sp` unchanged, because the marker
never puts two copies of `a` side by side. -/
theorem strip3_id_join2 (a c sp : Char) (hsp : sp ≠ a) :
    ∀ segs : List (List Char), (∀ s ∈ segs, a ∉ s) →
      strip3 a a c (joinWith [a, sp] segs) = joinWith [a, sp] segs := by
  intro segs
  induction segs with
  | nil => intro _; rfl
  | cons s tail ih =>
    intro h
    have hs : a ∉ s := h s (List.mem_cons_self _ _)
    cases tail with
    | nil => exact strip3_of_no_first a a c s hs
    | cons s2 rest =>
      rw [joinWith_cons2]
      simp only [List.cons_append, List.nil_append]
      rw [strip3_skip a a c s _ hs,
        strip3_cons2_ne a a c a sp (fun hpair => hsp hpair.2),
        strip3_cons_ne a a c sp hsp,
        ih (fun x hx => h x (List.mem_cons_of_mem _ hx))]

/-- The four-character replacement `a a a d` leaves a line of `a`-free
segments interleaved with the two-character marker `a sp` unchanged. -/
theorem strip4_id_join2 (a d sp : Char) (hsp : sp ≠ a) :
    ∀ segs : List (List Char), (∀ s ∈ segs, a ∉ s) →
      strip4 a a a d (joinWith [a, sp] segs) = joinWith [a, sp] segs := by
  intro segs
  induction segs with
  | nil => intro _; rfl
  | cons s tail ih =>
    intro h
    have hs : a ∉ s := h s (List.mem_cons_self _ _)
    cases tail with
    | nil => exact strip4_of_no_first a a a d s hs
    | cons s2 rest =>
      rw [joinWith_cons2]
      simp only [List.cons_append, List.nil_append]
      rw [strip4_skip a a a d s _ hs,
        strip4_cons2_ne a a a d a sp (fun hpair => hsp hpair.2),
        strip4_cons_ne a a a d sp hsp,
        ih (fun x hx => h x (List.mem_cons_of_mem _ hx))]

/-- The four-character replacement `a a a d` leaves a line of `a`-free
segments interleaved with the three-character marker `a a sp` unchanged,
because the marker never puts three copies of `a` side by side. -/
theorem strip4_id_join3 (a d sp : Char) (hsp : sp ≠ a) :
    ∀ segs : List (List Char), (∀ s ∈ segs, a ∉ s) →
      strip4 a a a d (joinWith [a, a, sp] segs) = joinWith [a, a, sp] segs := by
  intro segs
  induction segs with
  | nil => intro _; rfl
  | cons s tail ih =>
    intro h
    have hs : a ∉ s := h s (List.mem_cons_self _ _)
    cases tail with
    | nil => exact strip4_of_no_first a a a d s hs
    | cons s2 rest =>
      rw [joinWith_cons2]
      simp only [List.cons_append, List.nil_append]
      rw [strip4_skip a a a d s _ hs,
        strip4_cons3_ne a a a d a a sp (fun htri => hsp htri.2.2),
        strip4_cons2_ne a a a d a sp (fun hpair => hsp hpair.2),
        strip4_cons_ne a a a d sp hsp,
        ih (fun x hx => h x (List.mem_cons_of_mem _ hx))]

/-- Every character of an interleaved line comes from the separator or from a
segment. -/
theorem mem_joinWith (sep : List Char) :
    ∀ (segs : List (List Char)) (x : Char), x ∈ joinWith sep segs →
      x ∈ sep ∨ ∃ s ∈ segs, x ∈ s := by
  intro segs
  induction segs with
  | nil => intro x hx; exact absurd hx (List.not_mem_nil x)
  | cons s tail ih =>
    intro x hx
    cases tail with
    | nil => exact Or.inr ⟨s, List.mem_cons_self _ _, hx⟩
    | cons s2 rest =>
      rw [joinWith_cons2] at hx
      rcases List.mem_append.mp hx with h1 | h2
      · exact Or.inr ⟨s, List.mem_cons_self _ _, h1⟩
      · rcases List.mem_append.mp h2 with h3 | h4
        · exact Or.inl h3
        · rcases ih x h4 with h5 | ⟨s', hs', hx'⟩
          · exact Or.inl h5
          · exact Or.inr ⟨s', List.mem_cons_of_mem _ hs', hx'⟩

/-- A character absent from the separator and from every segment is absent
from the interleaved line. -/
theorem not_mem_joinWith (sep : List Char) (segs : List (List Char)) (x : Char)
    (hsep : x ∉ sep) (hsegs : ∀ s ∈ segs, x ∉ s) : x ∉ joinWith sep segs := by
  intro hx
  rcases mem_joinWith sep segs x hx with h | ⟨s, hs, hx'⟩
  · exact hsep h
  · exact hsegs s hs hx'

/-- Concatenating marker-free segments yields a marker-free list. -/
theorem markerFree_flatten (segs : List (List Char)) (h : ∀ s ∈ segs, markerFree s) :
    markerFree segs.flatten := by
  refine ⟨?_, ?_, ?_⟩
  · intro hx
    rcases List.mem_flatten.mp hx with ⟨s, hs, hxs⟩
    exact (h s hs).1 hxs
  · intro hx
    rcases List.mem_flatten.mp hx with ⟨s, hs, hxs⟩
    exact (h s hs).2.1 hxs
  · intro hx
    rcases List.mem_flatten.mp hx with ⟨s, hs, hxs⟩
    exact (h s hs).2.2 hxs

/-- Splitting at newlines is the identity partition on a newline-free list. -/
theorem splitLinesCh_no_newline : ∀ l : List Char, '\n' ∉ l → splitLinesCh l = [l] := by
  intro l
  induction l with
  | nil => intro _; rfl
  | cons c rest ih =>
    intro h
    have hc : c ≠ '\n' := fun hcn => h (hcn ▸ List.mem_cons_self _ _)
    simp only [splitLinesCh]
    rw [if_neg hc, ih (fun hm => h (List.mem_cons_of_mem _ hm))]

/-- A nonempty list has a last element. -/
theorem getLast?_isSome_of_ne_nil : ∀ l : List Char, l ≠ [] → ∃ c, l.getLast? = some c := by
  intro l
  induction l with
  | nil => intro h; exact absurd rfl h
  | cons x xs ih =>
    intro _
    cases xs with
    | nil => exact ⟨x, rfl⟩
    | cons y ys =>
      obtain ⟨c, hc⟩ := ih (by simp)
      exact ⟨c, by rw [List.getLast?_cons_cons]; exact hc⟩

/-- The last element of a list is one of its members. -/
theorem getLast?_mem_of_eq : ∀ (l : List Char) (c : Char), l.getLast? = some c → c ∈ l := by
  intro l
  induction l with
  | nil => intro c hc; simp at hc
  | cons x xs ih =>
    intro c hc
    cases xs with
    | nil =>
      obtain rfl : x = c := Option.some.inj hc
      exact List.mem_cons_self _ _
    | cons y ys =>
      rw [List.getLast?_cons_cons] at hc
      exact List.mem_cons_of_mem _ (ih c hc)

/-- Python splitlines on a nonempty newline-free text yields that single
line. -/
theorem pySplitlinesCh_no_newline (l : List Char) (h : '\n' ∉ l) (hne : l ≠ []) :
    pySplitlinesCh l = [l] := by
  unfold pySplitlinesCh
  rw [if_neg hne]
  obtain ⟨c, hc⟩ := getLast?_isSome_of_ne_nil l hne
  have hcn : c ≠ '\n' := fun hcc => h (hcc ▸ getLast?_mem_of_eq l c hc)
  rw [if_neg (show ¬l.getLast? = some '\n' by
    rw [hc]; intro heq; exact hcn (Option.some.inj heq))]
  exact splitLinesCh_no_newline l h

/-- On a single (newline-free) input line, `markdown_to_text` is exactly the
per-line cleanup followed by the whitespace strip. -/
theorem markdown_to_text_single_line (l : List Char) (h : '\n' ∉ l) :
    markdown_to_text (String.mk l) = String.mk (pyStrip (cleanupLine l)) := by
  by_cases hl : l = []
  · subst hl
    rfl
  · unfold markdown_to_text
    rw [show (String.mk l).data = l from rfl, pySplitlinesCh_no_newline l h hl]
    rfl

/-- C8 (amended): the per-line cleanup removes every occurrence of each of the
five markers `"# "`, `"## "`, `"### "`, `"**"` and `"__"` wherever it occurs
in the line, not only in leading position — a line assembled from marker-free
segments interleaved with any number of copies of one marker cleans to exactly
the concatenation of the segments — and on any newline-free input the whole
text preparation is that per-line cleanup followed by the final whitespace
strip. -/
theorem markdown_marker_removal (segs : List (List Char))
    (hsegs : ∀ s ∈ segs, markerFree s) :
    cleanupLine (joinWith ['#', ' '] segs) = segs.flatten ∧
      cleanupLine (joinWith ['#', '#', ' '] segs) = segs.flatten ∧
      cleanupLine (joinWith ['#', '#', '#', ' '] segs) = segs.flatten ∧
      cleanupLine (joinWith ['*', '*'] segs) = segs.flatten ∧
      cleanupLine (joinWith ['_', '_'] segs) = segs.flatten ∧
      ∀ l : List Char, '\n' ∉ l →
        markdown_to_text (String.mk l) = String.mk (pyStrip (cleanupLine l)) := by
  have hhash : ∀ s ∈ segs, '#' ∉ s := fun s hs => (hsegs s hs).1
  have hstar : ∀ s ∈ segs, '*' ∉ s := fun s hs => (hsegs s hs).2.1
  have hund : ∀ s ∈ segs, '_' ∉ s := fun s hs => (hsegs s hs).2.2
  have hflat := markerFree_flatten segs hsegs
  refine ⟨?_, ?_, ?_, ?_, ?_, fun l hl => markdown_to_text_single_line l hl⟩
  · have hJ := not_mem_joinWith ['#', ' '] segs
    unfold cleanupLine
    rw [strip2_of_no_first '*' '*' _ (hJ '*' (by decide) hstar),
      strip2_of_no_first '_' '_' _ (hJ '_' (by decide) hund),
      strip4_id_join2 '#' ' ' ' ' (by decide) segs hhash,
      strip3_id_join2 '#' ' ' ' ' (by decide) segs hhash,
      strip2_joinWith '#' ' ' segs hhash]
  · have hJ := not_mem_joinWith ['#', '#', ' '] segs
    unfold cleanupLine
    rw [strip2_of_no_first '*' '*' _ (hJ '*' (by decide) hstar),
      strip2_of_no_first '_' '_' _ (hJ '_' (by decide) hund),
      strip4_id_join3 '#' ' ' ' ' (by decide) segs hhash,
      strip3_joinWith '#' '#' ' ' segs hhash,
      strip2_of_no_first '#' ' ' _ hflat.1]
  · have hJ := not_mem_joinWith ['#', '#', '#', ' '] segs
    unfold cleanupLine
    rw [strip2_of_no_first '*' '*' _ (hJ '*' (by decide) hstar),
      strip2_of_no_first '_' '_' _ (hJ '_' (by decide) hund),
      strip4_joinWith '#' '#' '#' ' ' segs hhash,
      strip3_of_no_first '#' '#' ' ' _ hflat.1,
      strip2_of_no_first '#' ' ' _ hflat.1]
  · unfold cleanupLine
    rw [strip2_joinWith '*' '*' segs hstar,
      strip2_of_no_first '_' '_' _ hflat.2.2,
      strip4_of_no_first '#' '#' '#' ' ' _ hflat.1,
      strip3_of_no_first '#' '#' ' ' _ hflat.1,
      strip2_of_no_first '#' ' ' _ hflat.1]
  · have hJ := not_mem_joinWith ['_', '_'] segs
    unfold cleanupLine
    rw [strip2_of_no_first '*' '*' _ (hJ '*' (by decide) hstar),
      strip2_joinWith '_' '_' segs hund,
      strip4_of_no_first '#' '#' '#' ' ' _ hflat.1,
      strip3_of_no_first '#' '#' ' ' _ hflat.1,
      strip2_of_no_first '#' ' ' _ hflat.1]

/-- Witness for the amended C8 at segments `"a"`, `"b"`, `"c"`: the line
`"a# b# c"` with two inner heading markers cleans to `"abc"`, the line
`"a**b**c"` cleans to `"abc"`, and the full text preparation of the first line
gives the stripped concatenation. -/
theorem markdown_marker_removal_witness :
    markerFree ['a'] ∧ markerFree ['b'] ∧ markerFree ['c'] ∧
      cleanupLine (joinWith ['#', ' '] [['a'], ['b'], ['c']]) = [['a'], ['b'], ['c']].flatten ∧
      cleanupLine (joinWith ['*', '*'] [['a'], ['b'], ['c']]) = [['a'], ['b'], ['c']].flatten ∧
      markdown_to_text (String.mk (joinWith ['#', ' '] [['a'], ['b'], ['c']])) =
        String.mk (pyStrip [['a'], ['b'], ['c']].flatten) := by
  have h := markdown_marker_removal [['a'], ['b'], ['c']] (by decide)
  refine ⟨by decide, by decide, by decide, h.1, h.2.2.2.1, ?_⟩
  rw [h.2.2.2.2.2 (joinWith ['#', ' '] [['a'], ['b'], ['c']]) (by decide), h.1]

/-- Counterexample for C9 as stated: blank lines decrement the cursor without
any page-break check, so after a long run of blank lines the next body line is
drawn below the 2 cm bottom margin with no new page started. -/
theorem pdf_blank_lines_below_margin_cex :
    hasBelowMarginDraw (make_pdf_bytes "T" blankHeavyMd) = true := by
  decide

/-- The reset cursor position of a page break is above the bottom margin. -/
theorem margin_le_reset : 2 * cmUnits ≤ a4Height - 2 * cmUnits := by decide

/-- Closing a page does not change the sequence of issued draw commands. -/
theorem draws_showPage (st : PdfLayout) : draws (showPage st) = draws st := by
  simp [draws, showPage]

/-- The page-break check does not change the sequence of issued draw
commands. -/
theorem draws_pageBreakCheck (st : PdfLayout) : draws (pageBreakCheck st) = draws st := by
  unfold pageBreakCheck
  split
  · simp [draws, setFont, showPage]
  · rfl

/-- After the page-break check the cursor is at or above the bottom margin. -/
theorem pageBreakCheck_y (st : PdfLayout) : 2 * cmUnits ≤ (pageBreakCheck st).y := by
  unfold pageBreakCheck
  split
  · exact margin_le_reset
  · next h => exact Int.not_lt.mp h

/-- Drawing one chunk preserves the margin invariant: the chunk is drawn at
the current (in-margin) cursor, and the page-break check restores the
cursor. -/
theorem emitPiece_inv (st : PdfLayout) (piece : List Char) (h : goodLayout st) :
    goodLayout (emitPiece st piece) := by
  obtain ⟨hy, hd⟩ := h
  constructor
  · exact pageBreakCheck_y _
  · intro d hdm
    unfold emitPiece at hdm
    rw [draws_pageBreakCheck] at hdm
    have hdr :
        draws { drawString st (2 * cmUnits) st.y (String.mk piece) with
                  y := st.y - ptUnits 12 } =
          draws st ++ [⟨2 * cmUnits, st.y, String.mk piece, st.font⟩] := by
      simp [draws, drawString]
    rw [hdr] at hdm
    rcases List.mem_append.mp hdm with hin | hin
    · exact hd d hin
    · rw [List.mem_singleton.mp hin]
      exact hy

/-- Folding `emitPiece` over any chunk list preserves the margin invariant. -/
theorem foldl_emitPiece_inv (pieces : List (List Char)) :
    ∀ st, goodLayout st → goodLayout (pieces.foldl emitPiece st) := by
  induction pieces with
  | nil => intro st h; exact h
  | cons p ps ih => intro st h; exact ih _ (emitPiece_inv st p h)

/-- Processing a non-blank line preserves the margin invariant. -/
theorem emitLine_inv (line : List Char) (st : PdfLayout) (h : goodLayout st)
    (hnb : (pyStrip line).isEmpty = false) : goodLayout (emitLine st line) := by
  unfold emitLine
  simp only [hnb, Bool.false_eq_true, if_false]
  exact foldl_emitPiece_inv _ st h

/-- Folding `emitLine` over a list of non-blank lines preserves the margin
invariant. -/
theorem foldl_emitLine_inv (lines : List (List Char)) :
    ∀ st, (∀ l ∈ lines, (pyStrip l).isEmpty = false) → goodLayout st →
      goodLayout (lines.foldl emitLine st) := by
  induction lines with
  | nil => intro st _ h; exact h
  | cons l ls ih =>
    intro st hall h
    exact ih _ (fun x hx => hall x (List.mem_cons_of_mem _ hx))
      (emitLine_inv l st h (hall l (List.mem_cons_self _ _)))

/-- C9 (amended): when the cleaned report text contains no blank
(whitespace-only) line, every draw command of the generated document sits at
or above the 2 cm bottom margin — the page-break check after each drawn chunk
starts a new page and resets cursor and body font whenever the cursor crosses
the margin; blank lines, however, move the cursor without that check (see the
counterexample). The document is always finalized by closing the open page; an
empty report yields exactly one page, and a sixty-line report exceeds the
one-page capacity of 59 lines and yields two pages. -/
theorem pdf_pagination :
    (∀ title md,
        (pySplitlinesCh (markdown_to_text md).data).all
            (fun l => !(pyStrip l).isEmpty) = true →
          ∀ d ∈ draws (make_pdf_bytes title md), 2 * cmUnits ≤ d.y) ∧
      (∀ title md, (make_pdf_bytes title md).current = []) ∧
      (∀ title, pageCount (make_pdf_bytes title "") = 1) ∧
      pageCount (make_pdf_bytes "T" longReportMd) = 2 := by
  refine ⟨?_, ?_, ?_, by decide⟩
  · intro title md hall
    have hlines :
        ∀ l ∈ pySplitlinesCh (markdown_to_text md).data, (pyStrip l).isEmpty = false := by
      intro l hl
      have hx := List.all_eq_true.mp hall l hl
      simpa using hx
    have hinit :
        goodLayout
          (⟨[], [⟨2 * cmUnits, a4Height - 2 * cmUnits, title, some ("Helvetica-Bold", 14)⟩],
            some ("Helvetica", 10), a4Height - 3 * cmUnits⟩ : PdfLayout) := by
      refine ⟨show 2 * cmUnits ≤ a4Height - 3 * cmUnits by decide, ?_⟩
      intro d hdm
      simp [draws] at hdm
      rw [hdm]
      exact margin_le_reset
    have key :=
      foldl_emitLine_inv (pySplitlinesCh (markdown_to_text md).data) _ hlines hinit
    intro d hdm
    rw [show make_pdf_bytes title md =
        showPage ((pySplitlinesCh (markdown_to_text md).data).foldl emitLine
          (⟨[], [⟨2 * cmUnits, a4Height - 2 * cmUnits, title, some ("Helvetica-Bold", 14)⟩],
            some ("Helvetica", 10), a4Height - 3 * cmUnits⟩ : PdfLayout)) from rfl] at hdm
    rw [draws_showPage] at hdm
    exact key.2 d hdm
  · intro title md
    rfl
  · intro title
    rfl

/-- Witness for the amended C9 at title `"T"` and report `"hello"`: the single
body line is drawn at `height - 3 cm`, above the bottom margin. -/
theorem pdf_pagination_witness :
    (pySplitlinesCh (markdown_to_text "hello").data).all
        (fun l => !(pyStrip l).isEmpty) = true ∧
      2 * cmUnits ≤
        (DrawCmd.mk (2 * cmUnits) (a4Height - 3 * cmUnits) "hello"
          (some ("Helvetica", 10))).y :=
  ⟨by decide,
    pdf_pagination.1 "T" "hello" (by decide)
      (DrawCmd.mk (2 * cmUnits) (a4Height - 3 * cmUnits) "hello" (some ("Helvetica", 10)))
      (by decide)⟩

/-- Create-then-remove of one file leaves nothing on disk. -/
theorem applyFs_create_remove (r : String) :
    applyFs [.create r, .remove r] = [] := by
  simp [applyFs, List.filter]

/-- Nested create/remove pairs of two files leave nothing on disk. -/
theorem applyFs_nested_pairs (r z : String) :
    applyFs [.create r, .create z, .remove z, .remove r] = [] := by
  by_cases hrz : (r != z) = true
  · simp [applyFs, List.filter, hrz]
  · have hrz' : (r != z) = false := by
      cases h : r != z
      · rfl
      · exact absurd h hrz
    simp [applyFs, List.filter, hrz']

/-- C4: with demo mode enabled the model collaborator is never invoked, any
report value that is produced is exactly the fixed demo template, and when the
raw write does not raise the template is in fact produced, for every
combination of the remaining settings, upload and environment. -/
theorem demo_mode_no_model_call (cfg : Config) (upl : Upload) (env : Env)
    (hdemo : cfg.demo_mode = true) :
    (generate_report cfg upl env).modelCalls = 0 ∧
      (∀ r, (generate_report cfg upl env).reportVal = some r →
        r = demo_report_template) ∧
      (env.rawWriteOk = true →
        (generate_report cfg upl env).reportVal = some demo_report_template) := by
  unfold generate_report
  cases hrw : env.rawWriteOk with
  | false => simp [hrw]
  | true => simp [hrw, run_branch, hdemo]

/-- Witness for C4: the demo configuration with a successful environment. -/
theorem demo_mode_no_model_call_witness :
    cfgDemo.demo_mode = true ∧
      (generate_report cfgDemo uplPng envOk).modelCalls = 0 ∧
      (generate_report cfgDemo uplPng envOk).reportVal = some demo_report_template :=
  ⟨rfl, (demo_mode_no_model_call cfgDemo uplPng envOk rfl).1,
    (demo_mode_no_model_call cfgDemo uplPng envOk rfl).2.2 rfl⟩

/-- Counterexample for C5 as stated: the raw-upload write happens before the
try/finally guard is entered, so an exception during that write leaks the raw
temporary file `upload_aaaa.png`. -/
theorem raw_write_failure_leak_cex :
    leakedFiles (generate_report cfgReal uplPng envRawFail) = ["upload_aaaa.png"] ∧
      leakedFiles (generate_report cfgReal uplPng envRawFail) ≠ [] := by
  constructor
  · decide
  · decide

/-- C5 (amended): provided the raw-upload write itself does not raise, every
temporary file the request created is deleted before control returns on every
exit path — demo or real branch, decode failure, Agno-image failure, model
failure, post-processing failure — because the inner finally always removes
the resized file and the outer finally always removes the raw file; only an
exception inside the raw write (which precedes the try/finally) leaks the raw
file. -/
theorem temp_files_cleanup (cfg : Config) (upl : Upload) (env : Env)
    (hrw : env.rawWriteOk = true) :
    leakedFiles (generate_report cfg upl env) = [] := by
  unfold leakedFiles generate_report
  cases hd : cfg.demo_mode with
  | true =>
    simp only [hrw, run_branch, hd]
    simp [applyFs_create_remove]
  | false =>
    cases hdec : env.decodeOk with
    | false =>
      simp only [hrw, run_branch, hd, hdec]
      simp [applyFs_create_remove]
    | true =>
      cases hagno : env.agnoOk with
      | false =>
        simp only [hrw, run_branch, hd, hdec, hagno]
        simp [applyFs_nested_pairs]
      | true =>
        simp only [hrw, run_branch, hd, hdec, hagno]
        simp [applyFs_nested_pairs]

/-- Witness for the amended C5: the successful environment leaks nothing. -/
theorem temp_files_cleanup_witness :
    envOk.rawWriteOk = true ∧ leakedFiles (generate_report cfgReal uplPng envOk) = [] :=
  ⟨rfl, temp_files_cleanup cfgReal uplPng envOk rfl⟩

/-- C10: without an upload no generation runs; the raw upload bytes are
written first, before the demo/real branch is chosen, in demo and real mode
alike (the create of the raw file heads the event list even when the write
then raises); in demo mode with a successful write the events are exactly the
raw-file create followed by its removal — no resize, no model call — and the
raw name determines the drawn uuid hex, so distinct hex draws give distinct
file names. -/
theorem upload_gating_raw_write :
    (∀ cfg env, analyze_tab cfg none env = none) ∧
      (∀ cfg upl env,
        (generate_report cfg upl env).events.head? =
          some (.create (raw_path_name env.uploadHex (upload_ext upl.mime)))) ∧
      (∀ cfg upl env, cfg.demo_mode = true → env.rawWriteOk = true →
        (generate_report cfg upl env).events =
            [.create (raw_path_name env.uploadHex (upload_ext upl.mime)),
              .remove (raw_path_name env.uploadHex (upload_ext upl.mime))] ∧
          (generate_report cfg upl env).modelCalls = 0) ∧
      (∀ hex1 hex2 ext, raw_path_name hex1 ext = raw_path_name hex2 ext →
        hex1 = hex2) := by
  refine ⟨fun cfg env => rfl, ?_, ?_, ?_⟩
  · intro cfg upl env
    unfold generate_report
    cases hrw : env.rawWriteOk <;> simp [hrw]
  · intro cfg upl env hdemo hrw
    unfold generate_report
    simp [hrw, run_branch, hdemo]
  · intro hex1 hex2 ext heq
    have hdata := congrArg String.data heq
    simp only [raw_path_name, String.data_append] at hdata
    have h1 := List.append_cancel_right hdata
    have h2 := List.append_cancel_right h1
    have h3 := List.append_cancel_left h2
    cases hex1
    cases hex2
    exact congrArg String.mk h3

/-- Witness for C10 at the demo configuration, a PNG upload and a successful
environment. -/
theorem upload_gating_raw_write_witness :
    analyze_tab cfgReal none envOk = none ∧
      (generate_report cfgDemo uplPng envOk).events.head? =
        some (.create (raw_path_name envOk.uploadHex (upload_ext uplPng.mime))) ∧
      cfgDemo.demo_mode = true ∧ envOk.rawWriteOk = true ∧
      (generate_report cfgDemo uplPng envOk).modelCalls = 0 ∧
      raw_path_name "aaaa" "png" = raw_path_name "aaaa" "png" ∧ ("aaaa" : String) = "aaaa" :=
  ⟨upload_gating_raw_write.1 cfgReal envOk,
    upload_gating_raw_write.2.1 cfgDemo uplPng envOk,
    rfl, rfl,
    (upload_gating_raw_write.2.2.1 cfgDemo uplPng envOk rfl rfl).2,
    rfl,
    upload_gating_raw_write.2.2.2 "aaaa" "aaaa" "png" rfl⟩
